import Mathlib

/-!
Verification of the AIGC-Detection scoring pipeline.

The scoring core lives in `AIGCDetectionThread` (in `main.py` and, with
minor constant drift, in `core_engine.py`).  Strings are modelled as
`List Char`; Python floats are modelled as real numbers; Python ints as
`Nat`.  The external classifier (tokenizer + model + softmax of
temperature-scaled logits) is abstracted as a function
`List Char → Except (List Char) ℝ` returning either the raw probability
of the "generated" class or an error message, matching the capability
boundary the code calls into.
-/

namespace AIGC

/-- ASCII whitespace recognised by Python's `str.strip()` / `str.split()`
(the code only ever feeds text where these are the relevant characters). -/
def pyIsSpace (c : Char) : Bool :=
  c = ' ' || c = '\t' || c = '\n' || c = '\r' || c = '\x0b' || c = '\x0c'

/-- Python `s.strip()`: remove leading and trailing whitespace. -/
def pyStrip (s : List Char) : List Char :=
  ((s.dropWhile pyIsSpace).reverse.dropWhile pyIsSpace).reverse

/-- Python `text.split("\n")`: split at every newline, keeping empty pieces. -/
def splitNl : List Char → List (List Char)
  | [] => [[]]
  | c :: rest =>
    if c = '\n' then [] :: splitNl rest
    else
      match splitNl rest with
      | [] => [[c]]
      | s :: ss => (c :: s) :: ss

/-- Source `main.py` line 781 / `core_engine.py` line 117:
`paragraphs = [p for p in self.text.split("\n") if p.strip()]`. -/
def segment (text : List Char) : List (List Char) :=
  (splitNl text).filter (fun p => !(pyStrip p).isEmpty)

/-- The sentence-terminal characters of the regex `[。.!！?？;；\n]+` used by
`calculate_human_features`. -/
def isSentenceEnd (c : Char) : Bool :=
  c = '。' || c = '.' || c = '!' || c = '！' || c = '?' ||
  c = '？' || c = ';' || c = '；' || c = '\n'

/-- Worker for `splitMax`: splits at maximal runs of separator characters,
as Python's `re.split(r'[...]+', text)` does.  `inSep` records whether the
previous character belonged to a separator run (so further separator
characters of the same run are absorbed); `acc` is the reversed current
fragment. -/
def splitRunsGo (p : Char → Bool) : Bool → List Char → List Char → List (List Char)
  | _, acc, [] => [acc.reverse]
  | inSep, acc, c :: rest =>
    if p c then
      if inSep then splitRunsGo p true acc rest
      else acc.reverse :: splitRunsGo p true [] rest
    else splitRunsGo p false (c :: acc) rest

/-- Python `re.split(r'[sep]+', text)`: pieces between maximal separator
runs; a leading or trailing run contributes an empty piece. -/
def splitMax (p : Char → Bool) (s : List Char) : List (List Char) :=
  splitRunsGo p false [] s

/-- Source `main.py` line 721 (default policy): minimum effective length below
which a paragraph is ignored. -/
def MIN_VALID_CHARS : ℕ := 10

/-- Source `main.py` lines 804-805: `valid_chars = "".join(para.split());
para_len = len(valid_chars)` — count of non-whitespace characters. -/
def effectiveLength (para : List Char) : ℕ :=
  (para.filter (fun c => !pyIsSpace c)).length

/-- Source `main.py` line 806: `is_ignored = para_len < self.MIN_VALID_CHARS`. -/
def is_ignored (para : List Char) : Bool :=
  effectiveLength para < MIN_VALID_CHARS

/-- Source `main.py` line 807: `weight = 0 if is_ignored else para_len`. -/
def weight (para : List Char) : ℕ :=
  if is_ignored para then 0 else effectiveLength para

/-- Source `core_engine.py` line 50: the variant threshold. -/
def MIN_VALID_CHARS_ENGINE : ℕ := 20

/-- CJK-unified-ideograph test of the regex `[一-龥]`
(`core_engine.py` line 144). -/
def isChineseChar (c : Char) : Bool :=
  0x4e00 ≤ c.toNat && c.toNat ≤ 0x9fa5

/-- ASCII letter-or-digit test of the regex `[a-zA-Z0-9]`
(`core_engine.py` line 147). -/
def isAsciiAlnum (c : Char) : Bool :=
  ('a' ≤ c && c ≤ 'z') || ('A' ≤ c && c ≤ 'Z') || ('0' ≤ c && c ≤ '9')

/-- Source `core_engine.py` line 150: `para_len = chinese_count + (alnum_count * 0.5)`;
a rational because of the half-weighting. -/
def effectiveLengthEngine (para : List Char) : ℚ :=
  ((para.filter isChineseChar).length : ℚ) +
    ((para.filter isAsciiAlnum).length : ℚ) * (1 / 2)

/-- Source `core_engine.py` line 152 for the engine variant. -/
def is_ignoredEngine (para : List Char) : Bool :=
  effectiveLengthEngine para < (MIN_VALID_CHARS_ENGINE : ℚ)

/-- Source `core_engine.py` line 153 for the engine variant. -/
def weightEngine (para : List Char) : ℚ :=
  if is_ignoredEngine para then 0 else effectiveLengthEngine para

/-- Source `main.py` line 815 / `core_engine.py` line 162: the progress value
emitted after processing the paragraph of 0-based index `i` among `n`:
`30 + int(((idx + 1) / len(paragraphs)) * 65)`; `int` truncation of the
non-negative quotient is the floor, i.e. natural division. -/
def progressAt (n i : ℕ) : ℕ :=
  30 + (65 * (i + 1)) / n

/-- Source `main.py` line 722 / `core_engine.py` line 52: the power-law exponent. -/
noncomputable def POWER_FACTOR : ℝ := 3.5

/-- Python `round(y, 2)`: round to two decimal places (half away from ties
is immaterial to every property below). -/
noncomputable def round2 (y : ℝ) : ℝ :=
  ((round (y * 100) : ℤ) : ℝ) / 100

/-- Source `main.py` lines 799-802 / `core_engine.py` lines 138-141:
`adjusted_score = max(0.0, raw_ai_score - human_bonus);
final_ai_score = math.pow(adjusted_score, self.POWER_FACTOR);
ai_rate = round(final_ai_score * 100, 2)`. -/
noncomputable def calibrate (rawProbability humanBonus : ℝ) : ℝ :=
  round2 ((max 0 (rawProbability - humanBonus)) ^ POWER_FACTOR * 100)

/-- The claim's formula for the Calibrator, written in its order:
`round(100 * (max(0, raw - bonus)) ^ POWER_FACTOR, 2)`. -/
noncomputable def calibrate_spec (rawProbability humanBonus : ℝ) : ℝ :=
  round2 (100 * (max 0 (rawProbability - humanBonus)) ^ POWER_FACTOR)

/-- Source `main.py` lines 725-726 / `core_engine.py` lines 56-57: the sentence
fragments that survive `len(s.strip()) > 3`. -/
def qualifyingSentences (text : List Char) : List (List Char) :=
  (splitMax isSentenceEnd text).filter (fun s => 3 < (pyStrip s).length)

/-- Source `main.py` lines 728-732 / `core_engine.py` lines 59-63: the coefficient
of variation `std_dev / (mean_len + 1e-5)` of the fragment lengths. -/
noncomputable def cvOf (sentences : List (List Char)) : ℝ :=
  let lengths : List ℝ := sentences.map (fun s => (s.length : ℝ))
  let mean_len := lengths.sum / (lengths.length : ℝ)
  let variance := (lengths.map (fun l => (l - mean_len) ^ 2)).sum / (lengths.length : ℝ)
  Real.sqrt variance / (mean_len + 1e-5)

/-- Function `calculate_human_features` (`main.py` lines 724-735 /
`core_engine.py` lines 54-66). -/
noncomputable def calculate_human_features (text : List Char) : ℝ :=
  if (qualifyingSentences text).length < 3 then 0
  else if cvOf (qualifyingSentences text) > 0.4 then
    min ((cvOf (qualifyingSentences text) - 0.4) * 0.6) 0.3
  else 0

/-- Source `main.py` line 817 / `core_engine.py` line 164:
`avg = round(total_weighted_score / total_valid_weight, 2) if
total_valid_weight > 0 else 0`. -/
noncomputable def finalize (totalWeightedScore : ℝ) (totalValidWeight : ℕ) : ℝ :=
  if 0 < totalValidWeight then round2 (totalWeightedScore / (totalValidWeight : ℝ))
  else 0

/-- Prefix test: `beginsWith needle hay` holds when `hay` begins with `needle`. -/
def beginsWith : List Char → List Char → Bool
  | [], _ => true
  | _ :: _, [] => false
  | a :: as, b :: bs => a = b && beginsWith as bs

/-- Python `needle in hay` for strings: substring occurrence. -/
def containsSub (needle : List Char) : List Char → Bool
  | [] => beginsWith needle []
  | c :: rest => beginsWith needle (c :: rest) || containsSub needle rest

/-- Source `main.py` line 813 / `core_engine.py` line 159 (and the outer handler):
`"upgrade torch" in str(e) and "v2.6" in str(e)`. -/
def versionConflictSig (msg : List Char) : Bool :=
  containsSub "upgrade torch".data msg && containsSub "v2.6".data msg

/-- One entry of the `results` list
(`{"content": para, "ai_rate": ai_rate, "is_ignored": is_ignored}`). -/
structure ScoredParagraph where
  content : List Char
  ai_rate : ℝ
  ignoredFlag : Bool

/-- What `run` emits through `result_signal`: either the success dict
`{"total_ai_rate": avg, "paragraphs": results}` or an error dict. -/
inductive RunOutcome where
  | ok (total_ai_rate : ℝ) (paragraphs : List ScoredParagraph)
  | err (msg : List Char)

/-- The per-paragraph loop of `main.py` lines 788-815 (accumulator-passing
form of the Python state `results`, `total_weighted_score`,
`total_valid_weight`).  A classifier failure whose message carries the
version-conflict signature is re-raised (`Except.error`); any other
failure skips the paragraph and keeps the state unchanged. -/
noncomputable def runLoop (classify : List Char → Except (List Char) ℝ) :
    List (List Char) → List ScoredParagraph → ℝ → ℕ →
    Except (List Char) (List ScoredParagraph × ℝ × ℕ)
  | [], results, tws, tvw => .ok (results, tws, tvw)
  | para :: rest, results, tws, tvw =>
    match classify para with
    | .error msg =>
      if versionConflictSig msg then .error msg
      else runLoop classify rest results tws tvw
    | .ok raw =>
      let human_bonus := calculate_human_features para
      let ai_rate := calibrate raw human_bonus
      let ign := is_ignored para
      let w := weight para
      runLoop classify rest (results ++ [⟨para, ai_rate, ign⟩])
        (if ign then tws else tws + ai_rate * (w : ℝ))
        (if ign then tvw else tvw + w)

/-- The error message emitted when the version-conflict signature matches
(`main.py` line 822). -/
def envConflictMsg : List Char :=
  "【环境版本冲突】\n请升级 PyTorch 版本。\npip install --upgrade torch torchvision torchaudio".data

/-- The generic error message (`main.py` line 824). -/
def genericErrMsg (msg : List Char) : List Char :=
  "推理引擎异常:\n".data ++ msg

/-- The scoring run of `AIGCDetectionThread.run` from segmentation onward
(`main.py` lines 781-824), with the classifier call abstracted as
`classify`. -/
noncomputable def run (classify : List Char → Except (List Char) ℝ)
    (text : List Char) : RunOutcome :=
  let paragraphs := segment text
  if paragraphs.isEmpty then .ok 0 []
  else
    match runLoop classify paragraphs [] 0 0 with
    | .ok (results, tws, tvw) => .ok (finalize tws tvw) results
    | .error msg =>
      if versionConflictSig msg then .err envConflictMsg
      else .err (genericErrMsg msg)

/-- Modelled from the spec: the normalization step the spec ascribes to the
Segmenter ("normalize `\r\n`/`\r` to `\n` first"); it has no counterpart in
the source, which splits on `"\n"` alone. -/
def normalizeNewlines : List Char → List Char
  | [] => []
  | '\r' :: '\n' :: rest => '\n' :: normalizeNewlines rest
  | '\r' :: rest => '\n' :: normalizeNewlines rest
  | c :: rest => c :: normalizeNewlines rest

/-- Modelled from the spec: the Segmenter as the claim describes it,
normalizing line endings before splitting. -/
def segment_spec (text : List Char) : List (List Char) :=
  segment (normalizeNewlines text)

/-- The contents of the paragraph records of an outcome (empty for a
failure outcome). -/
def RunOutcome.contents : RunOutcome → List (List Char)
  | .ok _ ps => ps.map (fun sp => sp.content)
  | .err _ => []

/-- Classifier stub whose failure message carries the version-conflict
signature. -/
def clConflict : List Char → Except (List Char) ℝ :=
  fun _ => Except.error "please upgrade torch to v2.6".data

/-- Classifier stub whose failure message does not carry the signature. -/
def clBoom : List Char → Except (List Char) ℝ :=
  fun _ => Except.error "boom".data

/-- Classifier stub failing with a generic message, used to produce a run
with no valid paragraph. -/
def clDrop : List Char → Except (List Char) ℝ :=
  fun _ => Except.error "e".data

/-- Classifier stub that always fails, to exhibit that an empty run never
reaches the classifier. -/
def clFail : List Char → Except (List Char) ℝ :=
  fun _ => Except.error "model failure".data

/-- Classifier stub that fails (generically) on `"ab"` and succeeds on
everything else. -/
noncomputable def clMixed : List Char → Except (List Char) ℝ :=
  fun p => if p = "ab".data then Except.error "boom".data else Except.ok 1

/-- Classifier stub that succeeds on every paragraph. -/
noncomputable def clAllOk : List Char → Except (List Char) ℝ :=
  fun _ => Except.ok 1

/-! ### Helper lemmas -/

theorem round2_mono {x y : ℝ} (h : x ≤ y) : round2 x ≤ round2 y := by
  unfold round2
  have h1 : round (x * 100) ≤ round (y * 100) := by
    rw [round_eq, round_eq]
    exact Int.floor_le_floor (by linarith)
  have h2 : ((round (x * 100) : ℤ) : ℝ) ≤ ((round (y * 100) : ℤ) : ℝ) := by
    exact_mod_cast h1
  linarith

theorem round2_zero : round2 0 = 0 := by
  unfold round2
  rw [zero_mul, round_zero]
  norm_num

theorem round2_nonneg {x : ℝ} (h : 0 ≤ x) : 0 ≤ round2 x :=
  round2_zero ▸ round2_mono h

theorem round2_hundred : round2 100 = 100 := by
  have h : ((100 : ℝ) * 100) = ((10000 : ℕ) : ℝ) := by norm_num
  unfold round2
  rw [h, round_natCast]
  norm_num

/-! ### Claim theorems -/

/-- C1: for every `rawProbability ∈ [0,1]` and `humanBonus ∈ [0,0.3]`, the
calibrated score equals `round(100 * (max(0, raw - bonus)) ^ POWER_FACTOR, 2)`
(subtract-and-clamp, then power transform, then scale-and-round), and the
result lies in `[0, 100]`. -/
theorem calibrate_correct (p b : ℝ) (hp0 : 0 ≤ p) (hp1 : p ≤ 1)
    (hb0 : 0 ≤ b) (hb1 : b ≤ 0.3) :
    calibrate p b = calibrate_spec p b ∧
    0 ≤ calibrate p b ∧ calibrate p b ≤ 100 := by
  have hm0 : (0 : ℝ) ≤ max 0 (p - b) := le_max_left _ _
  have hm1 : max 0 (p - b) ≤ 1 := max_le (by norm_num) (by linarith)
  have hpow0 : 0 ≤ (max 0 (p - b)) ^ POWER_FACTOR := Real.rpow_nonneg hm0 _
  have hpow1 : (max 0 (p - b)) ^ POWER_FACTOR ≤ 1 :=
    Real.rpow_le_one hm0 hm1 (by norm_num [POWER_FACTOR])
  refine ⟨?_, ?_, ?_⟩
  · unfold calibrate calibrate_spec
    exact congrArg round2 (mul_comm _ _)
  · exact round2_nonneg (by nlinarith)
  · have hle : (max 0 (p - b)) ^ POWER_FACTOR * 100 ≤ 100 := by nlinarith
    calc calibrate p b ≤ round2 100 := round2_mono hle
    _ = 100 := round2_hundred

/-- Witness for C1 at `rawProbability = 1`, `humanBonus = 0`. -/
theorem calibrate_correct_witness :
    ((0 : ℝ) ≤ 1 ∧ (1 : ℝ) ≤ 1 ∧ (0 : ℝ) ≤ 0 ∧ (0 : ℝ) ≤ 0.3) ∧
    (calibrate 1 0 = calibrate_spec 1 0 ∧
     0 ≤ calibrate 1 0 ∧ calibrate 1 0 ≤ 100) :=
  ⟨by norm_num,
   calibrate_correct 1 0 (by norm_num) (by norm_num) (by norm_num) (by norm_num)⟩

/-- C6: calibration is monotone in the raw probability — for every fixed
`humanBonus` and raw probabilities `p2 ≤ p1` in `[0,1]`,
`calibrate p2 b ≤ calibrate p1 b`. -/
theorem calibrate_monotone (b p1 p2 : ℝ) (h0 : 0 ≤ p2) (h21 : p2 ≤ p1)
    (h1 : p1 ≤ 1) : calibrate p2 b ≤ calibrate p1 b := by
  unfold calibrate
  apply round2_mono
  apply mul_le_mul_of_nonneg_right _ (by norm_num)
  exact Real.rpow_le_rpow (le_max_left _ _)
    (max_le_max le_rfl (by linarith)) (by norm_num [POWER_FACTOR])

/-- Witness for C6 at `p2 = 0`, `p1 = 1`, `b = 0.1`. -/
theorem calibrate_monotone_witness :
    ((0 : ℝ) ≤ 0 ∧ (0 : ℝ) ≤ 1 ∧ (1 : ℝ) ≤ 1) ∧
    calibrate 0 0.1 ≤ calibrate 1 0.1 :=
  ⟨by norm_num,
   calibrate_monotone 0.1 1 0 (by norm_num) (by norm_num) (by norm_num)⟩

/-- C3: for both validity policies in the source lineage, a paragraph is
ignored with weight 0 exactly when its effective length is strictly below
the threshold, and otherwise is kept with weight equal to the effective
length; the boundary cases `MIN_VALID_CHARS - 1` (ignored) and
`MIN_VALID_CHARS` (not ignored) follow. -/
theorem validity_policy_correct (para : List Char) :
    (is_ignored para = true ↔ effectiveLength para < MIN_VALID_CHARS) ∧
    (effectiveLength para < MIN_VALID_CHARS →
       is_ignored para = true ∧ weight para = 0) ∧
    (MIN_VALID_CHARS ≤ effectiveLength para →
       is_ignored para = false ∧ weight para = effectiveLength para) ∧
    (effectiveLength para = MIN_VALID_CHARS - 1 → is_ignored para = true) ∧
    (effectiveLength para = MIN_VALID_CHARS → is_ignored para = false) ∧
    (is_ignoredEngine para = true ↔
       effectiveLengthEngine para < (MIN_VALID_CHARS_ENGINE : ℚ)) ∧
    (effectiveLengthEngine para < (MIN_VALID_CHARS_ENGINE : ℚ) →
       is_ignoredEngine para = true ∧ weightEngine para = 0) ∧
    ((MIN_VALID_CHARS_ENGINE : ℚ) ≤ effectiveLengthEngine para →
       is_ignoredEngine para = false ∧
       weightEngine para = effectiveLengthEngine para) := by
  refine ⟨?_, ?_, ?_, ?_, ?_, ?_, ?_, ?_⟩ <;>
    simp only [is_ignored, weight, is_ignoredEngine, weightEngine,
      MIN_VALID_CHARS, MIN_VALID_CHARS_ENGINE, decide_eq_true_eq] <;>
    intros <;> simp_all

/-- Witness for C3 at a 9-character and a 10-character paragraph. -/
theorem validity_policy_correct_witness :
    (effectiveLength "123456789".data < MIN_VALID_CHARS ∧
       is_ignored "123456789".data = true ∧ weight "123456789".data = 0) ∧
    (MIN_VALID_CHARS ≤ effectiveLength "0123456789".data ∧
       is_ignored "0123456789".data = false ∧
       weight "0123456789".data = effectiveLength "0123456789".data) :=
  ⟨⟨by decide, (validity_policy_correct _).2.1 (by decide)⟩,
   ⟨by decide, (validity_policy_correct _).2.2.1 (by decide)⟩⟩

/-- C10: for a run over `n ≥ 1` paragraphs, the progress value emitted
after the paragraph at 0-based index `i` is `30 + ⌊65 * (i+1) / n⌋`; the
values are non-decreasing in `i`, never exceed 95, and the value after the
last paragraph is exactly 95. -/
theorem progress_correct (n i : ℕ) (hn : 1 ≤ n) (hi : i < n) :
    progressAt n i = 30 + Nat.floor ((65 * (i + 1) : ℚ) / (n : ℚ)) ∧
    (∀ j, j ≤ i → progressAt n j ≤ progressAt n i) ∧
    progressAt n i ≤ 95 ∧
    progressAt n (n - 1) = 95 := by
  have hcancel : 65 * n / n = 65 := by
    rw [Nat.mul_div_assoc 65 dvd_rfl, Nat.div_self (by omega)]
  refine ⟨?_, ?_, ?_, ?_⟩
  · have hcast : ((65 * (i + 1) : ℕ) : ℚ) = (65 * (i + 1) : ℚ) := by push_cast; ring
    rw [progressAt, ← hcast, Nat.floor_div_nat, Nat.floor_natCast]
  · intro j hj
    unfold progressAt
    exact Nat.add_le_add_left (Nat.div_le_div_right (by omega)) 30
  · unfold progressAt
    have h2 : (65 * (i + 1)) / n ≤ (65 * n) / n :=
      Nat.div_le_div_right (by omega)
    omega
  · unfold progressAt
    have h3 : n - 1 + 1 = n := by omega
    rw [h3, hcancel]

/-- Witness for C10 at `n = 4`, `i = 3`. -/
theorem progress_correct_witness :
    (1 ≤ 4 ∧ 3 < 4) ∧ progressAt 4 3 ≤ 95 ∧ progressAt 4 (4 - 1) = 95 :=
  ⟨by decide,
   (progress_correct 4 3 (by decide) (by decide)).2.2.1,
   (progress_correct 4 3 (by decide) (by decide)).2.2.2⟩

/-- C4: the burstiness heuristic returns 0 when fewer than 3 qualifying
fragments (stripped length > 3) survive the split on sentence terminators;
otherwise it returns `min((cv - 0.4) * 0.6, 0.3)` when the coefficient of
variation exceeds 0.4 and 0 otherwise; in all cases the result lies in
`[0, 0.3]`. -/
theorem human_features_correct (text : List Char) :
    ((qualifyingSentences text).length < 3 →
       calculate_human_features text = 0) ∧
    (3 ≤ (qualifyingSentences text).length →
       calculate_human_features text =
         if 0.4 < cvOf (qualifyingSentences text) then
           min ((cvOf (qualifyingSentences text) - 0.4) * 0.6) 0.3
         else 0) ∧
    0 ≤ calculate_human_features text ∧
    calculate_human_features text ≤ 0.3 := by
  unfold calculate_human_features
  refine ⟨fun h => by simp [h], fun h => by simp [Nat.not_lt.mpr h], ?_, ?_⟩
  · split_ifs with h1 h2
    · norm_num
    · exact le_min (mul_nonneg (by linarith) (by norm_num)) (by norm_num)
    · norm_num
  · split_ifs with h1 h2
    · norm_num
    · exact min_le_right _ _
    · norm_num

/-- Witness for C4 at the empty text (no qualifying fragment). -/
theorem human_features_correct_witness :
    (qualifyingSentences ([] : List Char)).length < 3 ∧
    calculate_human_features ([] : List Char) = 0 :=
  ⟨by decide, (human_features_correct []).1 (by decide)⟩

/-- C2: a per-paragraph classifier failure without the version-conflict
signature leaves the loop state untouched (the paragraph is dropped from
the results and the aggregate) and the loop continues on the remaining
paragraphs; a failure with the signature propagates, and the run emits the
environment-conflict error instead of a result. -/
theorem error_handling_correct (classify : List Char → Except (List Char) ℝ)
    (para : List Char) (rest : List (List Char))
    (results : List ScoredParagraph) (tws : ℝ) (tvw : ℕ) (msg : List Char)
    (hc : classify para = Except.error msg) :
    (versionConflictSig msg = false →
       runLoop classify (para :: rest) results tws tvw =
         runLoop classify rest results tws tvw) ∧
    (versionConflictSig msg = true →
       runLoop classify (para :: rest) results tws tvw = Except.error msg) ∧
    (∀ text, versionConflictSig msg = true → segment text = para :: rest →
       run classify text = RunOutcome.err envConflictMsg) := by
  refine ⟨fun hsig => by simp [runLoop, hc, hsig],
          fun hsig => by simp [runLoop, hc, hsig],
          fun text hsig hseg => ?_⟩
  have hloop : runLoop classify (segment text) results tws tvw = Except.error msg := by
    rw [hseg]; simp [runLoop, hc, hsig]
  have hloop0 : runLoop classify (segment text) [] 0 0 = Except.error msg := by
    rw [hseg]; simp [runLoop, hc, hsig]
  simp [run, hseg, hsig]
  rw [show segment text = para :: rest from hseg] at hloop0
  simp [hloop0, hsig]

/-- Witness for C2: the conflict stub aborts a one-paragraph run with the
environment-conflict message; the generic stub skips the paragraph. -/
theorem error_handling_correct_witness :
    versionConflictSig "please upgrade torch to v2.6".data = true ∧
    runLoop clConflict [['x']] [] 0 0 =
      Except.error "please upgrade torch to v2.6".data ∧
    run clConflict "x".data = RunOutcome.err envConflictMsg ∧
    versionConflictSig "boom".data = false ∧
    runLoop clBoom [['x']] [] 0 0 = runLoop clBoom [] [] 0 0 :=
  ⟨by decide,
   (error_handling_correct clConflict ['x'] [] [] 0 0 _ rfl).2.1 (by decide),
   (error_handling_correct clConflict ['x'] [] [] 0 0 _ rfl).2.2
     "x".data (by decide) (by decide),
   by decide,
   (error_handling_correct clBoom ['x'] [] [] 0 0 _ rfl).1 (by decide)⟩

/-- C5: `finalize` returns `round(weightedSum / totalWeight, 2)` when the
total valid weight is positive and 0 when it is zero; consequently a run
whose valid paragraphs have total weight 0 reports `total_ai_rate = 0`. -/
theorem finalize_correct :
    (∀ (ws : ℝ) (wt : ℕ),
       (0 < wt → finalize ws wt = round2 (ws / (wt : ℝ))) ∧
       (wt = 0 → finalize ws wt = 0)) ∧
    (∀ (classify : List Char → Except (List Char) ℝ) (text : List Char)
       (results : List ScoredParagraph) (ws : ℝ),
       runLoop classify (segment text) [] 0 0 = Except.ok (results, ws, 0) →
       run classify text = RunOutcome.ok 0 results) := by
  constructor
  · intro ws wt
    constructor
    · intro h; simp [finalize, h]
    · intro h; simp [finalize, h]
  · intro classify text results ws hloop
    by_cases he : (segment text).isEmpty
    · have hnil : segment text = [] := List.isEmpty_iff.mp he
      rw [hnil] at hloop
      simp [runLoop] at hloop
      simp [run, hnil, hloop]
    · simp [run, he, hloop, finalize]

/-- Witness for C5: a run whose only paragraph is dropped ends with total
weight 0 and `total_ai_rate = 0`. -/
theorem finalize_correct_witness :
    finalize 5 0 = 0 ∧
    runLoop clDrop (segment "hi".data) [] 0 0 = Except.ok ([], 0, 0) ∧
    run clDrop "hi".data = RunOutcome.ok 0 [] :=
  ⟨(finalize_correct.1 5 0).2 rfl,
   by simp [segment, splitNl, pyStrip, runLoop, clDrop]; decide,
   finalize_correct.2 clDrop "hi".data [] 0
     (by simp [segment, splitNl, pyStrip, runLoop, clDrop]; decide)⟩

/-- C9: when segmentation yields no paragraph, the run completes at once
with `total_ai_rate = 0` and an empty list, for every classifier (so the
classifier is never consulted) and without a failure outcome. -/
theorem empty_run_correct (classify : List Char → Except (List Char) ℝ)
    (text : List Char) (h : segment text = []) :
    run classify text = RunOutcome.ok 0 [] := by
  simp [run, h]

/-- Witness for C9 at the empty input string. -/
theorem empty_run_correct_witness :
    segment ([] : List Char) = [] ∧
    run clFail ([] : List Char) = RunOutcome.ok 0 [] :=
  ⟨by decide, empty_run_correct clFail [] (by decide)⟩

theorem splitNl_ne_nil (text : List Char) : splitNl text ≠ [] := by
  cases text with
  | nil => simp [splitNl]
  | cons c rest =>
    unfold splitNl
    split
    · simp
    · cases h : splitNl rest <;> simp

theorem mem_of_mem_splitNl {text p : List Char} (hp : p ∈ splitNl text) :
    ∀ c ∈ p, c ∈ text := by
  induction text generalizing p with
  | nil =>
    simp [splitNl] at hp
    subst hp
    simp
  | cons c0 rest ih =>
    by_cases h0 : c0 = '\n'
    · rw [show splitNl (c0 :: rest) = [] :: splitNl rest by
        simp [splitNl, h0]] at hp
      rcases List.mem_cons.mp hp with hp | hp
      · subst hp; simp
      · exact fun c hc => List.mem_cons_of_mem _ (ih hp c hc)
    · cases hsp : splitNl rest with
      | nil => exact absurd hsp (splitNl_ne_nil rest)
      | cons s ss =>
        rw [show splitNl (c0 :: rest) = (c0 :: s) :: ss by
          simp [splitNl, h0, hsp]] at hp
        rcases List.mem_cons.mp hp with hp | hp
        · subst hp
          intro c hc
          rcases List.mem_cons.mp hc with h | h
          · subst h; exact List.mem_cons_self _ _
          · exact List.mem_cons_of_mem _
              (ih (hsp ▸ List.mem_cons_self s ss) c h)
        · exact fun c hc => List.mem_cons_of_mem _
            (ih (hsp ▸ List.mem_cons_of_mem s hp) c hc)

theorem pyStrip_eq_nil_of_all_space {p : List Char}
    (h : ∀ c ∈ p, pyIsSpace c = true) : pyStrip p = [] := by
  unfold pyStrip
  rw [List.dropWhile_eq_nil_iff.mpr h]
  simp

/-- C7 counterexample: the source Segmenter does not normalize a lone
carriage return into a newline — on input `"a\rb"` it yields a single
paragraph `"a\rb"`, while the claimed normalize-then-split behaviour would
yield the two paragraphs `"a"`, `"b"`. -/
theorem segment_normalization_cex :
    segment "a\rb".data = [['a', '\r', 'b']] ∧
    segment_spec "a\rb".data = [['a'], ['b']] ∧
    segment "a\rb".data ≠ segment_spec "a\rb".data := by
  refine ⟨by decide, by decide, by decide⟩

/-- C7 amended: the Segmenter splits on `\n` alone (no `\r\n`/`\r`
normalization), drops every segment whose stripped form is empty,
preserves the relative order of the remaining segments, and maps an
all-whitespace (or empty) input to the empty sequence rather than an
error. -/
theorem segment_amended (text : List Char) :
    (segment text).Sublist (splitNl text) ∧
    (∀ p ∈ segment text, (pyStrip p).isEmpty = false) ∧
    ((∀ c ∈ text, pyIsSpace c = true) → segment text = []) := by
  refine ⟨List.filter_sublist _, ?_, ?_⟩
  · intro p hp
    have h2 := (List.mem_filter.mp hp).2
    simpa using h2
  · intro hall
    unfold segment
    rw [List.filter_eq_nil_iff]
    intro p hp
    have hnil : pyStrip p = [] :=
      pyStrip_eq_nil_of_all_space
        (fun c hc => hall c (mem_of_mem_splitNl hp c hc))
    simp [hnil]

/-- Witness for C7 (amended) on an all-whitespace input. -/
theorem segment_amended_witness :
    (" \t".data.all pyIsSpace = true) ∧ segment " \t".data = [] :=
  ⟨by decide, (segment_amended " \t".data).2.2 (by decide)⟩

/-- C8 counterexample: with a classifier that fails non-fatally on the
first of two paragraphs, the result list holds only the second paragraph,
so its 0th entry does not carry the content of the 0th segmented
paragraph. -/
theorem result_order_cex :
    (run clMixed "ab\ncd".data).contents = [['c', 'd']] ∧
    segment "ab\ncd".data = [['a', 'b'], ['c', 'd']] ∧
    (run clMixed "ab\ncd".data).contents ≠ segment "ab\ncd".data := by
  have h1 : (run clMixed "ab\ncd".data).contents = [['c', 'd']] := rfl
  refine ⟨h1, by decide, ?_⟩
  rw [h1]
  decide

theorem runLoop_ok_of_no_conflict
    (classify : List Char → Except (List Char) ℝ) :
    ∀ (ps : List (List Char)) (acc : List ScoredParagraph) (tws : ℝ) (tvw : ℕ),
      (∀ p ∈ ps, ∀ msg, classify p = Except.error msg →
         versionConflictSig msg = false) →
      ∃ results ws wt,
        runLoop classify ps acc tws tvw = Except.ok (results, ws, wt) ∧
        results.map (fun sp => sp.content) =
          acc.map (fun sp => sp.content) ++
            ps.filter (fun p => (classify p).isOk) := by
  intro ps
  induction ps with
  | nil =>
    intro acc tws tvw _
    exact ⟨acc, tws, tvw, rfl, by simp [runLoop]⟩
  | cons p rest ih =>
    intro acc tws tvw h
    have h' : ∀ q ∈ rest, ∀ msg, classify q = Except.error msg →
        versionConflictSig msg = false :=
      fun q hq msg hm => h q (List.mem_cons_of_mem _ hq) msg hm
    cases hc : classify p with
    | error msg =>
      have hsig : versionConflictSig msg = false :=
        h p (List.mem_cons_self _ _) msg hc
      obtain ⟨results, ws, wt, heq, hmap⟩ := ih acc tws tvw h'
      refine ⟨results, ws, wt, ?_, ?_⟩
      · simpa [runLoop, hc, hsig] using heq
      · rw [hmap]
        simp [List.filter_cons, hc, Except.isOk, Except.toBool]
    | ok raw =>
      obtain ⟨results, ws, wt, heq, hmap⟩ :=
        ih (acc ++ [⟨p, calibrate raw (calculate_human_features p),
              is_ignored p⟩])
          (if is_ignored p then tws
           else tws + calibrate raw (calculate_human_features p) * (weight p : ℝ))
          (if is_ignored p then tvw else tvw + weight p) h'
      refine ⟨results, ws, wt, ?_, ?_⟩
      · simpa [runLoop, hc] using heq
      · rw [hmap]
        simp [List.filter_cons, hc, Except.isOk, Except.toBool]

/-- C8 amended: the contents of the paragraph records in the result are,
in order, exactly those segmented paragraphs whose classification
succeeded; in particular, when every paragraph classifies successfully the
i-th record carries the content of the i-th segmented paragraph. -/
theorem result_order_amended (classify : List Char → Except (List Char) ℝ)
    (text : List Char)
    (h : ∀ p ∈ segment text, ∀ msg, classify p = Except.error msg →
       versionConflictSig msg = false) :
    ∃ rate results,
      run classify text = RunOutcome.ok rate results ∧
      results.map (fun sp => sp.content) =
        (segment text).filter (fun p => (classify p).isOk) ∧
      ((∀ p ∈ segment text, (classify p).isOk = true) →
        results.map (fun sp => sp.content) = segment text) := by
  obtain ⟨results, ws, wt, heq, hmap⟩ :=
    runLoop_ok_of_no_conflict classify (segment text) [] 0 0 h
  have hmap2 : results.map (fun sp => sp.content) =
      (segment text).filter (fun p => (classify p).isOk) := by
    simpa using hmap
  by_cases he : (segment text).isEmpty
  · have hnil : segment text = [] := List.isEmpty_iff.mp he
    refine ⟨0, [], by simp [run, hnil], ?_, ?_⟩
    · simp [hnil]
    · intro _; simp [hnil]
  · refine ⟨finalize ws wt, results, ?_, hmap2, ?_⟩
    · simp [run, he, heq]
    · intro hall
      rw [hmap2]
      exact List.filter_eq_self.mpr hall

/-- Witness for C8 (amended): with an always-succeeding classifier on two
paragraphs, the result contents reproduce the segmented paragraphs in
order. -/
theorem result_order_amended_witness :
    (run clAllOk "ab\ncd".data).contents = [['a', 'b'], ['c', 'd']] := by
  obtain ⟨rate, results, heq, _, hall⟩ :=
    result_order_amended clAllOk "ab\ncd".data
      (by intro p _ msg hm; simp [clAllOk] at hm)
  have h2 := hall (by intro p _; simp [clAllOk, Except.isOk, Except.toBool])
  rw [show (run clAllOk "ab\ncd".data).contents =
        results.map (fun sp => sp.content) by rw [heq]; rfl, h2]
  decide

end AIGC
